import Mathlib

/-!
Verification development for the RAG support-desk pipeline
(app/services/chat_service.py, app/services/rerank_service.py,
app/services/vector_store_service.py, app/services/config.py).

Shallow embedding conventions:
- Python floats are modelled as rationals (only comparisons and
  pass-through of numeric values matter to the properties below).
- The generation model, the embedding model and the JSON decoder of the
  standard library are external boundaries: the raw response text and the
  decoded Python object are inputs to the embedded post-processing code.
- The FAISS index and its on-disk copy are modelled as explicit state
  (an optional dimension-tagged list of id/vector entries in insertion
  order); the module-level globals of vector_store_service.py become a
  state record threaded through each operation, and a raised exception is
  modelled as the state at raise time paired with an error message.
-/

/-- Values of the dynamic Python objects produced by json.loads. -/
inductive PyObj where
  | null : PyObj
  | bool (b : Bool) : PyObj
  | num (q : ℚ) : PyObj
  | str (s : String) : PyObj
  | arr (xs : List PyObj) : PyObj
  | obj (kvs : List (String × PyObj)) : PyObj
deriving Inhabited

/-- Python dict.get with a default: json.loads keeps the last binding of a
duplicated key, so lookup scans the reversed binding list. -/
def pyDictGet (kvs : List (String × PyObj)) (key : String) (dflt : PyObj) : PyObj :=
  match kvs.reverse.find? (fun kv => kv.1 == key) with
  | some kv => kv.2
  | none => dflt

/-- Python truthiness, as applied by bool(...) in chat_service.py line 282. -/
def pyBool : PyObj → Bool
  | .null => false
  | .bool b => b
  | .num q => q != 0
  | .str s => s ≠ ""
  | .arr xs => ¬ xs.isEmpty
  | .obj kvs => ¬ kvs.isEmpty

/-- Numeric value of a digit string (helper for the float(...) model). -/
def digitsVal (cs : List Char) : Nat :=
  cs.foldl (fun a c => a * 10 + (c.toNat - 48)) 0

/-- Python float(string) on plain decimal literals: optional sign, digits
with an optional decimal point. Exotic accepted forms (exponents, inf,
nan, underscores) are modelled as failures; no property below depends on
a string-typed confidence field. -/
def strToRat (s : String) : Option ℚ :=
  let cs := s.trim.toList
  let sg : ℚ × List Char :=
    match cs with
    | '-' :: r => (-1, r)
    | '+' :: r => (1, r)
    | r => (1, r)
  let p := sg.2.span (fun c => c != '.')
  match p.2 with
  | [] =>
    if p.1 ≠ [] ∧ p.1.all Char.isDigit then
      some (sg.1 * (digitsVal p.1 : ℚ))
    else none
  | _ :: fp =>
    if (p.1 ++ fp) ≠ [] ∧ p.1.all Char.isDigit ∧ fp.all Char.isDigit then
      some (sg.1 * ((digitsVal p.1 : ℚ) + (digitsVal fp : ℚ) / (10 ^ fp.length)))
    else none

/-- Python float(...) conversion, as applied in chat_service.py line 283;
none models a raised TypeError/ValueError. -/
def pyFloat : PyObj → Option ℚ
  | .bool b => some (if b then 1 else 0)
  | .num q => some q
  | .str s => strToRat s
  | _ => none

/-- ESCALATION_CONFIDENCE_THRESHOLD from config.py (0.55). -/
def ESCALATION_CONFIDENCE_THRESHOLD : ℚ := 55 / 100

/-- TOP_K_RETRIEVER from config.py. -/
def TOP_K_RETRIEVER : Nat := 20

/-- TOP_K_RERANK from config.py. -/
def TOP_K_RERANK : Nat := 5

/-- Result dictionary returned by call_llm_with_rag (chat_service.py
lines 298-302). The answer keeps whatever object the model supplied under
the answer key (the code does not coerce it to a string). -/
structure LLMResult where
  answer : PyObj
  escalate_to_human : Bool
  confidence : ℚ

/-- The try-block of chat_service.py lines 278-283: json.loads gives
parsed (none models a raised decoding error); only a dict has a get
method, so any other decoded value raises AttributeError and lands in the
except branch; float(...) of a non-numeric confidence raises as well, in
which case the values extracted earlier in the block are discarded. -/
def tryParseFields (raw : String) (parsed : Option PyObj) :
    Option (PyObj × Bool × ℚ) :=
  match parsed with
  | some (PyObj.obj kvs) =>
    let a := pyDictGet kvs "answer" (PyObj.str raw)
    let e := pyBool (pyDictGet kvs "escalate_to_human" (PyObj.bool false))
    match pyFloat (pyDictGet kvs "confidence" (PyObj.num (7 / 10))) with
    | some c => some (a, e, c)
    | none => none
  | _ => none

/-- Stage 5 of call_llm_with_rag: parsed fields on success, the fallback
values (raw text as answer, escalate false, confidence 0.7) when the
try-block raised (chat_service.py lines 284-289). -/
def parsedStage (raw : String) (parsed : Option PyObj) : LLMResult :=
  match tryParseFields raw parsed with
  | some t => ⟨t.1, t.2.1, t.2.2⟩
  | none => ⟨PyObj.str raw, false, 7 / 10⟩

/-- Stage 6 of call_llm_with_rag (lines 295-296): the business override
sets escalate when confidence is below the threshold and otherwise leaves
the flag as parsed, so the final flag is the disjunction shown here. -/
def applyEscalationOverride (r : LLMResult) : LLMResult :=
  ⟨r.answer,
   r.escalate_to_human || decide (r.confidence < ESCALATION_CONFIDENCE_THRESHOLD),
   r.confidence⟩

/-- Post-response processing of call_llm_with_rag (chat_service.py lines
276-302), as a function of the raw model reply and its decoded form: the
prompt assembly and the network call of lines 197-274 are the external
generation boundary that produced raw. -/
def call_llm_with_rag (raw : String) (parsed : Option PyObj) : LLMResult :=
  applyEscalationOverride (parsedStage raw parsed)

/-- Row of the documents table, as reachable from a chunk through the
document relationship (models chunk.document of db_models.py). -/
structure DocumentMeta where
  id : Int
  filename : String
deriving Repr, DecidableEq, Inhabited

/-- Row of the document_chunks table (db_models.py), with the fields the
retrieval pipeline reads. -/
structure DocumentChunk where
  id : Int
  content : String
  document : DocumentMeta
deriving Repr, DecidableEq, Inhabited

/-- Fixed-point rendering of a score, modelling the percent-style .4f
format of the snippet header (rounding of exact ties and of negative
values may differ from IEEE printing; no property below reads this text
back). -/
def fmt4 (q : ℚ) : String :=
  let n : Int := Int.floor (q * 10000 + 1 / 2)
  let sgn := if n < 0 then "-" else ""
  let m := n.natAbs
  let fpStr := String.mk (Nat.toDigits 10 (m % 10000))
  let pad := String.mk (List.replicate (4 - fpStr.length) '0')
  sgn ++ toString (m / 10000) ++ "." ++ pad ++ fpStr

/-- Context-docs descriptor built at chat_service.py line 161. -/
def chunkDescriptor (c : DocumentChunk) : String :=
  c.document.filename ++ " (doc_id=" ++ toString c.document.id ++
    ", chunk_id=" ++ toString c.id ++ ")"

/-- Header-plus-content block appended at chat_service.py lines 156-160. -/
def snippetBlock (idx : Nat) (c : DocumentChunk) (dist : ℚ) : String :=
  "[Snippet " ++ toString idx ++ " | Doc: " ++ c.document.filename ++
    " | doc_id=" ++ toString c.document.id ++ " | chunk_id=" ++ toString c.id ++
    " | distance=" ++ fmt4 dist ++ "]" ++ "\n" ++ c.content

/-- The enumerate loop of build_context_from_chunks (lines 154-161),
appending one section and one descriptor per chunk; idx is the running
1-based snippet number. -/
def buildLoop (idx : Nat) : List (DocumentChunk × ℚ) → List String × List String
  | [] => ([], [])
  | p :: rest =>
    let r := buildLoop (idx + 1) rest
    (snippetBlock idx p.1 p.2 :: r.1, chunkDescriptor p.1 :: r.2)

/-- build_context_from_chunks (chat_service.py lines 144-164). -/
def build_context_from_chunks (cws : List (DocumentChunk × ℚ)) :
    String × List String :=
  let r := buildLoop 1 cws
  (String.intercalate "\n\n---\n\n" r.1, r.2)

/-- rerank_chunks (rerank_service.py lines 36-66). The cross-encoder is
the external relevance model: ce query text is the score predicted for
one (query, passage) pair, so scores = candidates.map(text -> ce query
text) aligned with the candidate list. Python list.sort is stable, as is
List.mergeSort, and descending order by score uses the non-strict
comparison on the score component. -/
def rerank_chunks (ce : String → String → ℚ) (query : String)
    (candidates : List (Int × String)) (top_k : Nat) : List (Int × String × ℚ) :=
  match candidates with
  | [] => []
  | c :: cs =>
    let ranked := (c :: cs).map (fun p => (p.1, p.2, ce query p.2))
    let sorted := ranked.mergeSort (fun a b => decide (b.2.2 ≤ a.2.2))
    sorted.take top_k

/-- Step D of retrieve_relevant_chunks (lines 90-95): pair each FAISS hit
with its chunk content, silently dropping ids that no longer resolve to a
stored chunk; db models the chunk_by_id lookup built from the database
fetch. -/
def candidatesFor (results : List (Int × ℚ)) (db : Int → Option DocumentChunk) :
    List (Int × String) :=
  results.filterMap (fun p => (db p.1).map (fun ch => (p.1, ch.content)))

/-- retrieve_relevant_chunks (chat_service.py lines 56-124); results is
the value returned by the FAISS search on the embedded query (the
embedding model being external, the search output is the input here). -/
def retrieve_relevant_chunks (ce : String → String → ℚ) (query : String)
    (results : List (Int × ℚ)) (db : Int → Option DocumentChunk) :
    List (DocumentChunk × ℚ) :=
  if results.isEmpty then []
  else
    let candidates := candidatesFor results db
    if candidates.isEmpty then []
    else
      let reranked := rerank_chunks ce query candidates TOP_K_RERANK
      reranked.filterMap (fun t => (db t.1).map (fun ch => (ch, t.2.2)))

/-- Result dictionary of answer_with_rag (lines 334-341 and 356-360). -/
structure RagAnswer where
  answer : PyObj
  escalate_to_human : Bool
  context_docs : List String

/-- Hard-coded terminal answer of chat_service.py lines 335-338. -/
def hardEscalationAnswer : String :=
  "I couldn\x27t find this information in the current knowledge base. Please escalate this to a human support agent."

/-- answer_with_rag (chat_service.py lines 317-360). The second component
records whether the generation model was invoked: the early return at
lines 332-341 happens before call_llm_with_rag, so it reports false there
and true on the normal path. raw and parsed are the reply the generation
boundary would produce for the assembled prompt. -/
def answer_with_rag (ce : String → String → ℚ) (user_query : String)
    (results : List (Int × ℚ)) (db : Int → Option DocumentChunk)
    (raw : String) (parsed : Option PyObj) : RagAnswer × Bool :=
  let chunks_with_scores := retrieve_relevant_chunks ce user_query results db
  if chunks_with_scores.isEmpty then
    (⟨PyObj.str hardEscalationAnswer, true, []⟩, false)
  else
    let bc := build_context_from_chunks chunks_with_scores
    let llm_result := call_llm_with_rag raw parsed
    (⟨llm_result.answer, llm_result.escalate_to_human, bc.2⟩, true)

/-- An IndexIDMap2-wrapped IndexFlatL2: a dimension plus the id-keyed
vectors in insertion order (vector_store_service.py lines 56-60). -/
structure FaissIndex where
  d : Nat
  entries : List (Int × List ℚ)
deriving Repr, DecidableEq, Inhabited

/-- The module-level state of vector_store_service.py: mem is the _index
global (none when uninitialized; _embedding_dim always mirrors mem.d and
is not modelled separately since no code path reads it independently),
disk is the content of the index file at INDEX_PATH (none when the file
does not exist). -/
structure VSState where
  mem : Option FaissIndex
  disk : Option FaissIndex
deriving Repr, DecidableEq, Inhabited

/-- The create-new-index helper (lines 56-60): fresh empty index in
memory, disk untouched (no save happens here). -/
def create_new_index (st : VSState) (embedding_dim : Nat) : VSState :=
  ⟨some ⟨embedding_dim, []⟩, st.disk⟩

/-- The load helper (lines 63-79): reads the persisted index into memory
when the file exists (the stored dimension wins), else clears the state. -/
def load_index (st : VSState) : VSState :=
  match st.disk with
  | some idx => ⟨some idx, st.disk⟩
  | none => ⟨none, st.disk⟩

/-- init_index (vector_store_service.py lines 87-96). -/
def init_index (st : VSState) (embedding_dim : Nat) : VSState :=
  match st.mem with
  | some _ => st
  | none =>
    match st.disk with
    | some _ => load_index st
    | none => create_new_index st embedding_dim

/-- Rectangularity of the embeddings batch: np.array(...).astype on a
ragged list of lists raises before the index is touched. -/
def rectangular : List (List ℚ) → Bool
  | [] => true
  | v :: vs => vs.all (fun w => w.length = v.length)

/-- add_embeddings (vector_store_service.py lines 122-138) as a state
transformer; the second component is some message when the call raised
(numpy conversion failure, faiss id-count or dimension check), and the
first component is the module state at return or raise time. A
successful non-empty add appends the id-keyed vectors and then persists
the whole index via save_index (line 138), so disk becomes a copy of
mem. -/
def add_embeddings (st : VSState) (chunk_ids : List Int)
    (embeddings : List (List ℚ)) : VSState × Option String :=
  match embeddings with
  | [] => (st, none)
  | v :: vs =>
    if ¬ rectangular (v :: vs) then (st, some "ValueError: ragged embeddings")
    else
      let st1 := match st.mem with
        | none => init_index st v.length
        | some _ => st
      match st1.mem with
      | none => (st1, some "AttributeError")
      | some idx =>
        if chunk_ids.length ≠ (v :: vs).length then
          (st1, some "ValueError: id count mismatch")
        else if (v :: vs).all (fun w => w.length = idx.d) then
          let idx2 : FaissIndex := ⟨idx.d, idx.entries ++ List.zip chunk_ids (v :: vs)⟩
          (⟨some idx2, some idx2⟩, none)
        else (st1, some "AssertionError: dimension mismatch")

/-- Squared L2 distance, the metric IndexFlatL2 reports. -/
def l2sq (v w : List ℚ) : ℚ :=
  (v.zip w).foldl (fun a p => a + (p.1 - p.2) ^ 2) 0

/-- search_similar (vector_store_service.py lines 141-167). The faiss
search is modelled by its semantics: ascending squared-L2 order with ties
by insertion order (stable sort), the k nearest kept, filler ids -1
filtered out by the Python loop; a query of the wrong dimension makes
faiss raise, modelled as the error case. The uninitialized and empty
checks of line 146 run before faiss is consulted. -/
def search_similar (st : VSState) (embedding : List ℚ) (top_k : Nat) :
    Except String (List (Int × ℚ)) :=
  match st.mem with
  | none => .ok []
  | some idx =>
    if idx.entries.length = 0 then .ok []
    else if embedding.length ≠ idx.d then .error "AssertionError: query dimension"
    else
      let scored := idx.entries.map (fun e => (e.1, l2sq e.2 embedding))
      let sorted := scored.mergeSort (fun a b => decide (a.2 ≤ b.2))
      .ok ((sorted.take top_k).filter (fun r => r.1 != -1))

/-- Sample model reply with a self-reported escalate of false and a low
confidence, used to exercise the threshold override. -/
def lowConfReply : PyObj :=
  PyObj.obj [("answer", PyObj.str "not sure"),
             ("escalate_to_human", PyObj.bool false),
             ("confidence", PyObj.num (3 / 10))]

/-- Sample model reply whose confidence field lies above 1. -/
def overUnitReply : PyObj :=
  PyObj.obj [("answer", PyObj.str "definitely"),
             ("escalate_to_human", PyObj.bool false),
             ("confidence", PyObj.num (5 / 2))]

/-- Helper: the parsed stage on a failed try-block. -/
theorem parsedStage_of_none {raw : String} {parsed : Option PyObj}
    (h : tryParseFields raw parsed = none) :
    parsedStage raw parsed = ⟨PyObj.str raw, false, 7 / 10⟩ := by
  unfold parsedStage
  rw [h]

/-- Helper: the parsed stage on a successful try-block. -/
theorem parsedStage_of_some {raw : String} {parsed : Option PyObj}
    {t : PyObj × Bool × ℚ} (h : tryParseFields raw parsed = some t) :
    parsedStage raw parsed = ⟨t.1, t.2.1, t.2.2⟩ := by
  unfold parsedStage
  rw [h]

/-- Helper: the override never changes the confidence component. -/
theorem call_llm_confidence (raw : String) (parsed : Option PyObj) :
    (call_llm_with_rag raw parsed).confidence = (parsedStage raw parsed).confidence := rfl

/-- Helper: the fallback default clears the threshold. -/
theorem default_conf_not_low : ¬ ((7 : ℚ) / 10 < ESCALATION_CONFIDENCE_THRESHOLD) := by
  norm_num [ESCALATION_CONFIDENCE_THRESHOLD]

/-- C1: whenever the confidence carried by the result of
call_llm_with_rag is strictly below ESCALATION_CONFIDENCE_THRESHOLD, the
returned escalate_to_human flag is true, whatever escalate value the
model itself reported; the override runs on both the parsed and the
fallback values. -/
theorem threshold_override_law (raw : String) (parsed : Option PyObj)
    (h : (call_llm_with_rag raw parsed).confidence < ESCALATION_CONFIDENCE_THRESHOLD) :
    (call_llm_with_rag raw parsed).escalate_to_human = true := by
  have h' : (parsedStage raw parsed).confidence < ESCALATION_CONFIDENCE_THRESHOLD := h
  show ((parsedStage raw parsed).escalate_to_human ||
      decide ((parsedStage raw parsed).confidence < ESCALATION_CONFIDENCE_THRESHOLD)) = true
  rw [decide_eq_true h', Bool.or_true]

/-- Witness for C1: a reply reporting escalate false and confidence 0.3
is forced to escalate. -/
theorem threshold_override_law_witness :
    (call_llm_with_rag "raw reply" (some lowConfReply)).confidence <
      ESCALATION_CONFIDENCE_THRESHOLD ∧
    (call_llm_with_rag "raw reply" (some lowConfReply)).escalate_to_human = true := by
  have hc : (call_llm_with_rag "raw reply" (some lowConfReply)).confidence <
      ESCALATION_CONFIDENCE_THRESHOLD := by
    have he : (call_llm_with_rag "raw reply" (some lowConfReply)).confidence = 3 / 10 := by
      norm_num [call_llm_with_rag, applyEscalationOverride, parsedStage, tryParseFields,
        pyDictGet, pyFloat, lowConfReply, List.find?]
    rw [he]
    norm_num [ESCALATION_CONFIDENCE_THRESHOLD]
  exact ⟨hc, threshold_override_law "raw reply" (some lowConfReply) hc⟩

/-- C3: when structured parsing of the raw model response fails, the
pre-override result is the raw text as answer with escalate false and
confidence 0.7, and since 0.7 clears the 0.55 threshold the final result
is the same triple; the turn completes with no hard failure. -/
theorem fallback_law (raw : String) (parsed : Option PyObj)
    (h : tryParseFields raw parsed = none) :
    parsedStage raw parsed = ⟨PyObj.str raw, false, 7 / 10⟩ ∧
    call_llm_with_rag raw parsed = ⟨PyObj.str raw, false, 7 / 10⟩ := by
  have h1 := parsedStage_of_none h
  refine ⟨h1, ?_⟩
  unfold call_llm_with_rag applyEscalationOverride
  rw [h1]
  simp [decide_eq_false default_conf_not_low]

/-- Witness for C3: a reply that is not valid JSON falls back to the raw
text with the default confidence. -/
theorem fallback_law_witness :
    tryParseFields "Sorry, I cannot answer." none = none ∧
    call_llm_with_rag "Sorry, I cannot answer." none =
      ⟨PyObj.str "Sorry, I cannot answer.", false, 7 / 10⟩ :=
  ⟨rfl, (fallback_law "Sorry, I cannot answer." none rfl).2⟩

/-- Counterexample for C9: a syntactically valid reply may carry a
confidence outside the unit interval and call_llm_with_rag returns it
unchanged, so the produced confidence is not always in the interval. -/
theorem confidence_range_counterexample :
    ¬ ((call_llm_with_rag "\x7b\"confidence\": 2.5\x7d" (some overUnitReply)).confidence ≤ 1) := by
  have he : (call_llm_with_rag "\x7b\"confidence\": 2.5\x7d" (some overUnitReply)).confidence
      = 5 / 2 := by
    norm_num [call_llm_with_rag, applyEscalationOverride, parsedStage, tryParseFields,
      pyDictGet, pyFloat, overUnitReply, List.find?]
  rw [he]
  norm_num

/-- C9 amended: the confidence produced by call_llm_with_rag is either
the fallback default 0.7 (which does lie in the unit interval) or
exactly the number parsed from the model response, passed through with
no clamping, so it lies in the unit interval only when the model reports
a value there. -/
theorem confidence_passthrough (raw : String) (parsed : Option PyObj) :
    ((call_llm_with_rag raw parsed).confidence = 7 / 10 ∧
      (0 : ℚ) ≤ 7 / 10 ∧ (7 : ℚ) / 10 ≤ 1) ∨
    (∃ a e, tryParseFields raw parsed =
      some (a, e, (call_llm_with_rag raw parsed).confidence)) := by
  cases h : tryParseFields raw parsed with
  | none =>
    left
    rw [call_llm_confidence, parsedStage_of_none h]
    exact ⟨rfl, by norm_num, by norm_num⟩
  | some t =>
    right
    refine ⟨t.1, t.2.1, ?_⟩
    rw [call_llm_confidence, parsedStage_of_some h]

/-- C2: when no FAISS candidate survives the database fetch (in
particular when the index search returned nothing at all),
retrieve_relevant_chunks returns the empty list without reranking, and
answer_with_rag returns the hard-coded escalation answer with
escalate_to_human true and no context docs, without invoking the
generation model. -/
theorem empty_retrieval_terminal (ce : String → String → ℚ) (query : String)
    (results : List (Int × ℚ)) (db : Int → Option DocumentChunk)
    (raw : String) (parsed : Option PyObj)
    (h : candidatesFor results db = []) :
    retrieve_relevant_chunks ce query results db = [] ∧
    answer_with_rag ce query results db raw parsed =
      (⟨PyObj.str hardEscalationAnswer, true, []⟩, false) := by
  have h1 : retrieve_relevant_chunks ce query results db = [] := by
    unfold retrieve_relevant_chunks
    by_cases hr : results.isEmpty <;> simp [hr, h]
  refine ⟨h1, ?_⟩
  unfold answer_with_rag
  rw [h1]
  simp

/-- Witness for C2: a search hit whose id no longer resolves to a stored
chunk leads to the terminal escalation answer. -/
theorem empty_retrieval_terminal_witness :
    candidatesFor [((3 : Int), (2 : ℚ))] (fun _ => none) = [] ∧
    answer_with_rag (fun _ _ => 0) "any question" [((3 : Int), (2 : ℚ))]
        (fun _ => none) "ignored" none =
      (⟨PyObj.str hardEscalationAnswer, true, []⟩, false) :=
  ⟨rfl, (empty_retrieval_terminal (fun _ _ => 0) "any question"
      [((3 : Int), (2 : ℚ))] (fun _ => none) "ignored" none rfl).2⟩

/-- Helper: rerank_chunks never returns more than top_k results. -/
theorem rerank_chunks_length_le (ce : String → String → ℚ) (query : String)
    (candidates : List (Int × String)) (k : Nat) :
    (rerank_chunks ce query candidates k).length ≤ k := by
  unfold rerank_chunks
  cases candidates with
  | nil => simp
  | cons c cs => exact List.length_take_le _ _

/-- Helper: the comparison used by the descending sort is transitive. -/
theorem descend_trans (a b c : Int × String × ℚ)
    (h1 : decide (b.2.2 ≤ a.2.2) = true) (h2 : decide (c.2.2 ≤ b.2.2) = true) :
    decide (c.2.2 ≤ a.2.2) = true := by
  rw [decide_eq_true_eq] at h1 h2 ⊢
  exact le_trans h2 h1

/-- Helper: the comparison used by the descending sort is total. -/
theorem descend_total (a b : Int × String × ℚ) :
    (decide (b.2.2 ≤ a.2.2) || decide (a.2.2 ≤ b.2.2)) = true := by
  rcases le_total (b.2.2) (a.2.2) with h | h <;> simp [h]

/-- Helper: rerank_chunks output is sorted descending by score. -/
theorem rerank_chunks_pairwise (ce : String → String → ℚ) (query : String)
    (candidates : List (Int × String)) (k : Nat) :
    (rerank_chunks ce query candidates k).Pairwise (fun a b => b.2.2 ≤ a.2.2) := by
  unfold rerank_chunks
  cases candidates with
  | nil => simp
  | cons c cs =>
    have hs := List.sorted_mergeSort descend_trans descend_total
      ((c :: cs).map (fun p => (p.1, p.2, ce query p.2)))
    exact ((hs.imp (fun h => of_decide_eq_true h)).take)

/-- Helper: retrieve output in the non-trivial branch is the filterMap
of the reranked list. -/
theorem retrieve_pairwise (ce : String → String → ℚ) (query : String)
    (results : List (Int × ℚ)) (db : Int → Option DocumentChunk) :
    (retrieve_relevant_chunks ce query results db).Pairwise (fun a b => b.2 ≤ a.2) := by
  unfold retrieve_relevant_chunks
  by_cases hr : results.isEmpty
  · simp [hr]
  · simp only [hr, if_false]
    by_cases hc : (candidatesFor results db).isEmpty
    · simp [hc]
    · simp only [hc, if_false]
      refine List.Pairwise.filterMap _ ?_ (rerank_chunks_pairwise ce query _ _)
      intro a a' hle b hb b' hb'
      simp only [Option.mem_def, Option.map_eq_some'] at hb hb'
      obtain ⟨ch, _, hch⟩ := hb
      obtain ⟨ch', _, hch'⟩ := hb'
      rw [← hch, ← hch']
      exact hle

/-- Helper: retrieve output never exceeds TOP_K_RERANK entries. -/
theorem retrieve_length_le (ce : String → String → ℚ) (query : String)
    (results : List (Int × ℚ)) (db : Int → Option DocumentChunk) :
    (retrieve_relevant_chunks ce query results db).length ≤ TOP_K_RERANK := by
  unfold retrieve_relevant_chunks
  by_cases hr : results.isEmpty
  · simp [hr]
  · simp only [hr, if_false]
    by_cases hc : (candidatesFor results db).isEmpty
    · simp [hc]
    · simp only [hc, if_false]
      exact le_trans (List.length_filterMap_le _ _)
        (rerank_chunks_length_le ce query _ _)

/-- C7: rerank_chunks maps the empty candidate list to the empty result,
returns at most top_k entries sorted descending by cross-encoder score,
and consequently the output of retrieve_relevant_chunks is sorted
descending by rerank score with length at most TOP_K_RERANK. -/
theorem ranking_order_law (ce : String → String → ℚ) (query : String)
    (candidates : List (Int × String)) (k : Nat)
    (results : List (Int × ℚ)) (db : Int → Option DocumentChunk) :
    rerank_chunks ce query [] k = [] ∧
    (rerank_chunks ce query candidates k).length ≤ k ∧
    (rerank_chunks ce query candidates k).Pairwise (fun a b => b.2.2 ≤ a.2.2) ∧
    (retrieve_relevant_chunks ce query results db).length ≤ TOP_K_RERANK ∧
    (retrieve_relevant_chunks ce query results db).Pairwise (fun a b => b.2 ≤ a.2) :=
  ⟨rfl, rerank_chunks_length_le ce query candidates k,
    rerank_chunks_pairwise ce query candidates k,
    retrieve_length_le ce query results db,
    retrieve_pairwise ce query results db⟩

/-- Helper: the context loop emits exactly one block per chunk. -/
theorem buildLoop_fst_length (n : Nat) (cws : List (DocumentChunk × ℚ)) :
    (buildLoop n cws).1.length = cws.length := by
  induction cws generalizing n with
  | nil => rfl
  | cons p rest ih => simp [buildLoop, ih]

/-- Helper: the context loop emits the descriptors in chunk order. -/
theorem buildLoop_snd (n : Nat) (cws : List (DocumentChunk × ℚ)) :
    (buildLoop n cws).2 = cws.map (fun p => chunkDescriptor p.1) := by
  induction cws generalizing n with
  | nil => rfl
  | cons p rest ih => simp [buildLoop, ih]

/-- Helper: the i-th block is the snippet of the i-th chunk, numbered
from n. -/
theorem buildLoop_fst_get (n : Nat) (cws : List (DocumentChunk × ℚ)) :
    ∀ i (h1 : i < (buildLoop n cws).1.length) (h2 : i < cws.length),
      (buildLoop n cws).1[i] = snippetBlock (n + i) (cws[i]).1 (cws[i]).2 := by
  induction cws generalizing n with
  | nil => intro i h1 h2; exact absurd h2 (Nat.not_lt_zero i)
  | cons p rest ih =>
    intro i h1 h2
    cases i with
    | zero => simp [buildLoop]
    | succ j =>
      have h1' : j < (buildLoop (n + 1) rest).1.length := by
        rw [buildLoop_fst_length]
        rw [buildLoop_fst_length] at h1
        simp at h1
        omega
      have h2' : j < rest.length := by
        simp at h2
        omega
      have harith : n + (j + 1) = (n + 1) + j := by omega
      simp only [buildLoop, List.getElem_cons_succ, harith]
      exact ih (n + 1) j h1' h2'

/-- C8: for a non-empty ranked-result list, the citation list returned
by build_context_from_chunks has exactly one descriptor per chunk, its
length equals the number of header-plus-content blocks joined into the
context text, and the i-th citation describes the same chunk as the i-th
block. -/
theorem citation_context_parity (cws : List (DocumentChunk × ℚ)) (hne : cws ≠ []) :
    (build_context_from_chunks cws).2.length = (buildLoop 1 cws).1.length ∧
    (build_context_from_chunks cws).1 =
      String.intercalate "\n\n---\n\n" (buildLoop 1 cws).1 ∧
    (build_context_from_chunks cws).2 = cws.map (fun p => chunkDescriptor p.1) ∧
    ∀ i (h1 : i < (buildLoop 1 cws).1.length) (h2 : i < cws.length)
      (h3 : i < (build_context_from_chunks cws).2.length),
      (buildLoop 1 cws).1[i] = snippetBlock (1 + i) (cws[i]).1 (cws[i]).2 ∧
      (build_context_from_chunks cws).2[i] = chunkDescriptor (cws[i]).1 := by
  have hsnd : (build_context_from_chunks cws).2 = (buildLoop 1 cws).2 := rfl
  refine ⟨?_, rfl, ?_, ?_⟩
  · rw [hsnd, buildLoop_snd, List.length_map, buildLoop_fst_length]
  · rw [hsnd, buildLoop_snd]
  · intro i h1 h2 h3
    refine ⟨buildLoop_fst_get 1 cws i h1 h2, ?_⟩
    have h4 : i < (cws.map (fun p => chunkDescriptor p.1)).length := by
      rw [List.length_map]
      exact h2
    calc (build_context_from_chunks cws).2[i]
        = (cws.map (fun p => chunkDescriptor p.1))[i] := by
          congr 1
          rw [hsnd, buildLoop_snd]
      _ = chunkDescriptor (cws[i]).1 := List.getElem_map _

/-- Witness for C8: a singleton ranked-result list gets exactly its one
descriptor, in order. -/
theorem citation_context_parity_witness :
    ([(⟨11, "Refunds take 5 days.", ⟨2, "RefundPolicy.pdf"⟩⟩, (9 : ℚ) / 10)] ≠
      ([] : List (DocumentChunk × ℚ))) ∧
    (build_context_from_chunks
        [(⟨11, "Refunds take 5 days.", ⟨2, "RefundPolicy.pdf"⟩⟩, (9 : ℚ) / 10)]).2 =
      [(⟨11, "Refunds take 5 days.", ⟨2, "RefundPolicy.pdf"⟩⟩,
        (9 : ℚ) / 10)].map (fun p => chunkDescriptor p.1) :=
  ⟨List.cons_ne_nil _ _,
    (citation_context_parity
      [(⟨11, "Refunds take 5 days.", ⟨2, "RefundPolicy.pdf"⟩⟩, (9 : ℚ) / 10)]
      (List.cons_ne_nil _ _)).2.2.1⟩

/-- Helper: the comparison used by the ascending distance sort is
transitive. -/
theorem ascend_trans (a b c : Int × ℚ)
    (h1 : decide (a.2 ≤ b.2) = true) (h2 : decide (b.2 ≤ c.2) = true) :
    decide (a.2 ≤ c.2) = true := by
  rw [decide_eq_true_eq] at h1 h2 ⊢
  exact le_trans h1 h2

/-- Helper: the comparison used by the ascending distance sort is
total. -/
theorem ascend_total (a b : Int × ℚ) :
    (decide (a.2 ≤ b.2) || decide (b.2 ≤ a.2)) = true := by
  rcases le_total (a.2) (b.2) with h | h <;> simp [h]

/-- Helper: any successful search returns at most k pairs in ascending
distance order. -/
theorem search_similar_ok (st : VSState) (emb : List ℚ) (k : Nat)
    (res : List (Int × ℚ)) (hres : search_similar st emb k = Except.ok res) :
    res.length ≤ k ∧ res.Pairwise (fun a b => a.2 ≤ b.2) := by
  obtain ⟨mem, disk⟩ := st
  cases mem with
  | none =>
    obtain rfl : ([] : List (Int × ℚ)) = res := Except.ok.inj hres
    exact ⟨Nat.zero_le k, List.Pairwise.nil⟩
  | some idx =>
    simp only [search_similar] at hres
    by_cases h0 : idx.entries.length = 0
    · rw [if_pos h0] at hres
      obtain rfl : ([] : List (Int × ℚ)) = res := Except.ok.inj hres
      exact ⟨Nat.zero_le k, List.Pairwise.nil⟩
    · rw [if_neg h0] at hres
      by_cases hdim : emb.length ≠ idx.d
      · rw [if_pos hdim] at hres
        exact absurd hres (by simp)
      · rw [if_neg hdim] at hres
        obtain rfl := Except.ok.inj hres
        constructor
        · exact le_trans (List.length_filter_le _ _) (List.length_take_le _ _)
        · have hs := List.sorted_mergeSort ascend_trans ascend_total
            (idx.entries.map (fun e => (e.1, l2sq e.2 emb)))
          exact ((hs.imp (fun h => of_decide_eq_true h)).take).filter _

/-- C5: search_similar returns at most k (id, distance) pairs in
ascending squared-L2 order; it returns the empty list when the index is
uninitialized or holds no vectors (even before looking at the query);
and a query of the wrong dimension against a non-empty index is a hard
error for that call. -/
theorem search_contract (st : VSState) (emb : List ℚ) (k : Nat) :
    (∀ res, search_similar st emb k = Except.ok res →
      res.length ≤ k ∧ res.Pairwise (fun a b => a.2 ≤ b.2)) ∧
    (st.mem = none → search_similar st emb k = Except.ok []) ∧
    (∀ idx, st.mem = some idx → idx.entries = [] →
      search_similar st emb k = Except.ok []) ∧
    (∀ idx, st.mem = some idx → idx.entries ≠ [] → emb.length ≠ idx.d →
      search_similar st emb k = Except.error "AssertionError: query dimension") := by
  refine ⟨fun res hres => search_similar_ok st emb k res hres, ?_, ?_, ?_⟩
  · intro hmem
    obtain ⟨mem, disk⟩ := st
    cases hmem
    rfl
  · intro idx hmem hent
    obtain ⟨mem, disk⟩ := st
    cases hmem
    simp [search_similar, hent]
  · intro idx hmem hent hdim
    obtain ⟨mem, disk⟩ := st
    cases hmem
    have h0 : ¬ idx.entries.length = 0 := by
      simpa [List.length_eq_zero] using hent
    simp [search_similar, h0, hdim]

/-- Witness for C5: each branch of the contract exercised on a concrete
state: an uninitialized store, an initialized-but-empty index, and a
2-dimensional index given a 3-dimensional query. -/
theorem search_contract_witness :
    ((⟨none, none⟩ : VSState).mem = none) ∧
    search_similar ⟨none, none⟩ [(1 : ℚ)] 7 = Except.ok [] ∧
    ((⟨some ⟨4, []⟩, none⟩ : VSState).mem = some ⟨4, []⟩ ∧
      search_similar ⟨some ⟨4, []⟩, none⟩ [(1 : ℚ)] 7 = Except.ok []) ∧
    ((⟨some ⟨2, [((1 : Int), [(0 : ℚ), 0])]⟩, none⟩ : VSState).mem =
        some ⟨2, [((1 : Int), [(0 : ℚ), 0])]⟩ ∧
      ([(0 : ℚ), 0, 0].length ≠ 2) ∧
      search_similar ⟨some ⟨2, [((1 : Int), [(0 : ℚ), 0])]⟩, none⟩ [(0 : ℚ), 0, 0] 7 =
        Except.error "AssertionError: query dimension") :=
  ⟨rfl,
    (search_contract ⟨none, none⟩ [(1 : ℚ)] 7).2.1 rfl,
    ⟨rfl, (search_contract ⟨some ⟨4, []⟩, none⟩ [(1 : ℚ)] 7).2.2.1 ⟨4, []⟩ rfl rfl⟩,
    ⟨rfl, by decide,
      (search_contract ⟨some ⟨2, [((1 : Int), [(0 : ℚ), 0])]⟩, none⟩ [(0 : ℚ), 0, 0] 7).2.2.2
        ⟨2, [((1 : Int), [(0 : ℚ), 0])]⟩ rfl (List.cons_ne_nil _ _) (by decide)⟩⟩

/-- C4: an add against an index of dimension d containing a vector of a
different length raises and leaves the module state exactly as it was,
so searches before and after the failed add agree. -/
theorem add_dimension_mismatch (st : VSState) (ids : List Int)
    (embs : List (List ℚ)) (idx : FaissIndex)
    (hmem : st.mem = some idx) (hbad : ∃ v ∈ embs, v.length ≠ idx.d) :
    (add_embeddings st ids embs).2.isSome = true ∧
    (add_embeddings st ids embs).1 = st ∧
    (∀ q k, search_similar (add_embeddings st ids embs).1 q k = search_similar st q k) := by
  obtain ⟨v0, hv0m, hv0⟩ := hbad
  cases embs with
  | nil => cases hv0m
  | cons v vs =>
    obtain ⟨mem, disk⟩ := st
    cases hmem
    have key : ∃ m, add_embeddings ⟨some idx, disk⟩ ids (v :: vs) =
        (⟨some idx, disk⟩, some m) := by
      simp only [add_embeddings]
      by_cases hrect : rectangular (v :: vs)
      · rw [if_neg (by simp [hrect])]
        by_cases hlen : ids.length = (v :: vs).length
        · rw [if_neg (not_not_intro hlen)]
          have hall : ((v :: vs).all fun w => decide (w.length = idx.d)) = false := by
            rw [List.all_eq_false]
            exact ⟨v0, hv0m, by simpa using hv0⟩
          rw [if_neg (by simp [hall])]
          exact ⟨_, rfl⟩
        · rw [if_pos hlen]
          exact ⟨_, rfl⟩
      · rw [if_pos (by simp [hrect])]
        exact ⟨_, rfl⟩
    obtain ⟨m, hm⟩ := key
    rw [hm]
    exact ⟨rfl, rfl, fun q k => rfl⟩

/-- Witness for C4: adding a 3-vector to a 2-dimensional index fails and
leaves the state untouched. -/
theorem add_dimension_mismatch_witness :
    ((⟨some ⟨2, []⟩, none⟩ : VSState).mem = some ⟨2, []⟩) ∧
    (∃ v ∈ [[(0 : ℚ), 0, 0]], v.length ≠ (FaissIndex.mk 2 []).d) ∧
    (add_embeddings ⟨some ⟨2, []⟩, none⟩ [7] [[(0 : ℚ), 0, 0]]).1 =
      ⟨some ⟨2, []⟩, none⟩ :=
  ⟨rfl, ⟨[(0 : ℚ), 0, 0], by simp, by decide⟩,
    (add_dimension_mismatch ⟨some ⟨2, []⟩, none⟩ [7] [[(0 : ℚ), 0, 0]] ⟨2, []⟩ rfl
      ⟨[(0 : ℚ), 0, 0], by simp, by decide⟩).2.1⟩

/-- C6: initializing twice, with the same or a different dimension
argument, is a no-op on the second call; with a persisted index on disk
the load wins and the dimension argument is ignored; consequently search
results agree between one and two initializations. -/
theorem initialize_idempotent (st : VSState) (d d' : Nat) :
    init_index (init_index st d) d' = init_index st d ∧
    (∀ idx, st.mem = none → st.disk = some idx →
      init_index st d = ⟨some idx, some idx⟩ ∧ init_index st d = init_index st d') ∧
    (∀ q k, search_similar (init_index (init_index st d) d') q k =
      search_similar (init_index st d) q k) := by
  have h1 : init_index (init_index st d) d' = init_index st d := by
    obtain ⟨mem, disk⟩ := st
    cases mem <;> cases disk <;> rfl
  refine ⟨h1, ?_, fun q k => by rw [h1]⟩
  intro idx hmem hdisk
  obtain ⟨mem, disk⟩ := st
  cases hmem
  cases hdisk
  exact ⟨rfl, rfl⟩

/-- Witness for C6: with a persisted 3-dimensional index, initializing
with dimension 5 and again with 9 loads the stored index both times. -/
theorem initialize_idempotent_witness :
    ((⟨none, some ⟨3, [((5 : Int), [(1 : ℚ), 2, 3])]⟩⟩ : VSState).mem = none) ∧
    ((⟨none, some ⟨3, [((5 : Int), [(1 : ℚ), 2, 3])]⟩⟩ : VSState).disk =
      some ⟨3, [((5 : Int), [(1 : ℚ), 2, 3])]⟩) ∧
    init_index ⟨none, some ⟨3, [((5 : Int), [(1 : ℚ), 2, 3])]⟩⟩ 5 =
      ⟨some ⟨3, [((5 : Int), [(1 : ℚ), 2, 3])]⟩,
        some ⟨3, [((5 : Int), [(1 : ℚ), 2, 3])]⟩⟩ ∧
    init_index ⟨none, some ⟨3, [((5 : Int), [(1 : ℚ), 2, 3])]⟩⟩ 5 =
      init_index ⟨none, some ⟨3, [((5 : Int), [(1 : ℚ), 2, 3])]⟩⟩ 9 :=
  ⟨rfl, rfl,
    (initialize_idempotent ⟨none, some ⟨3, [((5 : Int), [(1 : ℚ), 2, 3])]⟩⟩ 5 9).2.1
      ⟨3, [((5 : Int), [(1 : ℚ), 2, 3])]⟩ rfl rfl⟩

/-- C10: an add with an empty embeddings batch returns immediately with
the whole state (memory and disk file) unchanged, while a non-empty add
that returns without raising always ends with the freshly written disk
file equal to the in-memory index. -/
theorem add_empty_noop (st : VSState) (ids : List Int) :
    add_embeddings st ids [] = (st, none) ∧
    (∀ v vs st', add_embeddings st ids (v :: vs) = (st', none) →
      ∃ idx2, st' = ⟨some idx2, some idx2⟩) := by
  refine ⟨rfl, ?_⟩
  intro v vs st' h
  obtain ⟨mem, disk⟩ := st
  cases mem with
  | none =>
    cases disk with
    | none =>
      simp only [add_embeddings, init_index, create_new_index] at h
      split_ifs at h with hrect hlen hall <;>
        first
          | exact ⟨_, ((Prod.ext_iff.mp h).1).symm⟩
          | exact absurd (congrArg Prod.snd h) (by simp)
    | some dIdx =>
      simp only [add_embeddings, init_index, load_index] at h
      split_ifs at h with hrect hlen hall <;>
        first
          | exact ⟨_, ((Prod.ext_iff.mp h).1).symm⟩
          | exact absurd (congrArg Prod.snd h) (by simp)
  | some i =>
    simp only [add_embeddings] at h
    split_ifs at h with hrect hlen hall <;>
      first
        | exact ⟨_, ((Prod.ext_iff.mp h).1).symm⟩
        | exact absurd (congrArg Prod.snd h) (by simp)

/-- Witness for C10: the empty add is the identity on a concrete state,
and a successful singleton add ends with disk equal to memory. -/
theorem add_empty_noop_witness :
    add_embeddings ⟨some ⟨2, [((9 : Int), [(1 : ℚ), 1])]⟩, some ⟨2, []⟩⟩ [4] [] =
      (⟨some ⟨2, [((9 : Int), [(1 : ℚ), 1])]⟩, some ⟨2, []⟩⟩, none) ∧
    (∃ idx2, (⟨some ⟨2, [((1 : Int), [(0 : ℚ), 0])]⟩,
        some ⟨2, [((1 : Int), [(0 : ℚ), 0])]⟩⟩ : VSState) = ⟨some idx2, some idx2⟩) :=
  ⟨(add_empty_noop ⟨some ⟨2, [((9 : Int), [(1 : ℚ), 1])]⟩, some ⟨2, []⟩⟩ [4]).1,
    (add_empty_noop ⟨none, none⟩ [1]).2 [(0 : ℚ), 0] []
      ⟨some ⟨2, [((1 : Int), [(0 : ℚ), 0])]⟩, some ⟨2, [((1 : Int), [(0 : ℚ), 0])]⟩⟩ rfl⟩
